import Mathlib

/-!
Verification of the watchlist reconciliation engine of `libby-book-monitor`
(src/scripts/libby-book-monitor.py), as a shallow embedding in Lean 4.

The network layer (`search_library`) is modelled as an oracle: for each
watchlist entry we are given either `none` (the search failed: HTTP error,
network error, or any other exception) or `some items` (the parsed
response's `items` list).  Time is modelled by passing the formatted
`now` timestamp and `today` date strings as parameters of one `check` run.
Printed output is modelled as the list of strings passed to `print`.
-/

namespace Libby

/-- The two values the code ever stores in an entry's `last_status` field:
`"found"` and `"not_found"`. -/
inductive Status where
  | found : Status
  | not_found : Status
deriving DecidableEq, Repr

/-- One record of a catalogue response's `items` list.  Each field the code
reads with `item.get(key, default)` is modelled as an `Option`, `none`
standing for an absent key. -/
structure Item where
  title? : Option String
  firstCreatorName? : Option String
  isOwned? : Option Bool
  ownedCopies? : Option Nat
  isAvailable? : Option Bool
  availableCopies? : Option Nat
deriving DecidableEq, Repr

/-- A watchlist entry, with the fields `cmd_watch` creates
(src/scripts/libby-book-monitor.py lines 177-187). -/
structure Book where
  title : String
  author : String
  library : String
  added : String
  last_status : Status
  last_checked : Option String
  found_date : Option String
deriving DecidableEq, Repr

/-- Python `s.lower()`: lower-case each character, as a character list. -/
def pyLower (s : String) : List Char :=
  s.toList.map Char.toLower

/-- Python `s.strip()`: drop leading and trailing whitespace characters. -/
def pyStrip (l : List Char) : List Char :=
  ((l.dropWhile Char.isWhitespace).reverse.dropWhile Char.isWhitespace).reverse

/-- Python `needle in hay` (contiguous subsequence test) on character
lists: the needle is a prefix of the haystack or occurs in its tail. -/
def isSubListOf (needle : List Char) : List Char → Bool
  | [] => needle.isEmpty
  | c :: rest => needle.isPrefixOf (c :: rest) || isSubListOf needle rest

/-- `title_matches` (lines 112-120): lower-case and strip both strings,
then test substring containment in either direction. -/
def title_matches (search_title result_title : String) : Bool :=
  let a := pyStrip (pyLower search_title)
  let b := pyStrip (pyLower result_title)
  isSubListOf a b || isSubListOf b a

/-- The loop body condition of lines 279-281: a response item is a genuine
match for a watched title when its (defaulted) `title` matches and its
(defaulted) `isOwned` is true. -/
def genuine_match (title : String) (item : Item) : Bool :=
  title_matches title (item.title?.getD "") && item.isOwned?.getD false

/-- The scan of lines 276-284: the first genuine match of the response's
item list, if any. -/
def findMatch (title : String) (items : List Item) : Option Item :=
  items.find? (genuine_match title)

/-- The per-entry state update of `cmd_check` (lines 271-296): given the
search oracle's answer for this entry, return the updated entry and the
`new_finds` contribution (the updated entry paired with the matched item).
A failed search (`none`) leaves the entry untouched (`continue`, line 274). -/
def checkBook (now today : String) (b : Book) (resp : Option (List Item)) :
    Book × Option (Book × Item) :=
  match resp with
  | none => (b, none)
  | some items =>
    let b1 : Book := { b with last_checked := some now }
    match findMatch b.title items with
    | some item =>
      if b.last_status = Status.not_found then
        let b2 : Book :=
          { b1 with last_status := Status.found, found_date := some today }
        (b2, some (b2, item))
      else
        ({ b1 with last_status := Status.found }, none)
    | none => ({ b1 with last_status := Status.not_found }, none)

/-- Result of the reconciliation loop of `cmd_check`: the updated books,
the `new_finds` list in iteration order, and how many rate-limit
`time.sleep` pauses were executed. -/
structure RunResult where
  books : List Book
  newFinds : List (Book × Item)
  sleeps : Nat
deriving DecidableEq, Repr

/-- The loop of `cmd_check` lines 264-299 over (entry, oracle answer)
pairs.  The sleep of lines 298-299 runs only when the entry is not the
last one AND its search succeeded (a failed search `continue`s past it). -/
def runCheck (now today : String) : List (Book × Option (List Item)) → RunResult
  | [] => { books := [], newFinds := [], sleeps := 0 }
  | (b, resp) :: rest =>
    let r := runCheck now today rest
    match resp with
    | none => { books := b :: r.books, newFinds := r.newFinds, sleeps := r.sleeps }
    | some items =>
      let c := checkBook now today b (some items)
      { books := c.1 :: r.books
        newFinds := (match c.2 with | some nf => nf :: r.newFinds | none => r.newFinds)
        sleeps := r.sleeps + (if rest.isEmpty then 0 else 1) }

/-- The three `print` lines emitted for one new find in notify mode
(lines 307-318). -/
def findLines (nf : Book × Item) : List String :=
  let b := nf.1
  let item := nf.2
  let t := item.title?.getD b.title
  let a := item.firstCreatorName?.getD b.author
  let copies := toString (item.ownedCopies?.getD 0)
  let avail := if item.isAvailable?.getD false then "Yes" else "No"
  [ "  " ++ t ++ " - " ++ a,
    "    Library: " ++ b.library ++ " | Copies: " ++ copies ++ " | Available: " ++ avail,
    "" ]

/-- Notify-mode output of the `new_finds` section (lines 304-319):
silent when there is nothing new. -/
def notifyLines (newFinds : List (Book × Item)) : List String :=
  if newFinds.isEmpty then []
  else "New on Libby:\n" :: newFinds.flatMap findLines

/-- Full-mode output of lines 320-323. -/
def fullLines (total : Nat) (newFinds : List (Book × Item)) : List String :=
  ("Checked " ++ toString total ++ " book(s).") ::
    (if newFinds.isEmpty then []
     else [toString newFinds.length ++ " new addition(s) found!"])

/-- The trailing FOUND-status digest of lines 325-331, printed in both
modes from the updated watchlist. -/
def foundDigest (books : List Book) : List String :=
  let found_books := books.filter (fun b => b.last_status = Status.found)
  if found_books.isEmpty then []
  else
    ("\n" ++ toString found_books.length ++ " book(s) already in catalogue:") ::
      found_books.map (fun b => "  - " ++ b.title) ++
      ["Consider removing them with \x27unwatch\x27."]

/-- The observable result of one `cmd_check` invocation. -/
structure CheckResult where
  books : List Book
  newFinds : List (Book × Item)
  sleeps : Nat
  output : List String
  exit : Nat
deriving DecidableEq, Repr

/-- `cmd_check` (lines 251-333): run the loop over the watchlist with the
search oracle's per-entry answers, then emit output; always exits 0. -/
def cmd_check (notify : Bool) (now today : String)
    (pairs : List (Book × Option (List Item))) : CheckResult :=
  if pairs.isEmpty then
    { books := [], newFinds := [], sleeps := 0,
      output := if notify then [] else ["Watchlist is empty."], exit := 0 }
  else
    let r := runCheck now today pairs
    let head :=
      if notify then notifyLines r.newFinds
      else fullLines pairs.length r.newFinds
    { books := r.books, newFinds := r.newFinds, sleeps := r.sleeps,
      output := head ++ foundDigest r.books, exit := 0 }

/-- The entry `cmd_watch` creates (lines 177-187). -/
def newEntry (title author library added : String) : Book :=
  { title := title, author := author, library := library, added := added,
    last_status := Status.not_found, last_checked := none, found_date := none }

/-- `cmd_watch` (lines 163-194): no-op (exit 0) when a case-insensitively
equal title is already watched, otherwise append a fresh entry (exit 0). -/
def cmd_watch (title author library added : String) (books : List Book) :
    List Book × Nat :=
  if books.any (fun b => pyLower b.title == pyLower title) then (books, 0)
  else (books ++ [newEntry title author library added], 0)

/-- Observable result of `cmd_unwatch`: the in-memory book list, the exit
code, and whether `save_watchlist` was called. -/
structure UnwatchResult where
  books : List Book
  exit : Nat
  saved : Bool
deriving DecidableEq, Repr

/-- `cmd_unwatch` (lines 197-213): drop every case-insensitively matching
entry; save and exit 0 when the list shrank, else exit 1 without saving. -/
def cmd_unwatch (title : String) (books : List Book) : UnwatchResult :=
  let remaining := books.filter (fun b => pyLower b.title != pyLower title)
  if remaining.length < books.length then
    { books := remaining, exit := 0, saved := true }
  else
    { books := remaining, exit := 1, saved := false }

/-- Number of entries of a watchlist whose title case-folds to the given
title's case-folding. -/
def countMatching (books : List Book) (title : String) : Nat :=
  (books.filter (fun b => pyLower b.title == pyLower title)).length

/-- Spec-side substring relation: the needle occurs contiguously inside
the haystack. -/
def IsSubstr (needle hay : List Char) : Prop :=
  ∃ s t, s ++ needle ++ t = hay

/-! ### String-level lemmas -/

lemma isPrefixOf_eq_true_iff (n l : List Char) :
    n.isPrefixOf l = true ↔ ∃ t, n ++ t = l := by
  induction n generalizing l with
  | nil => simp [List.isPrefixOf]
  | cons c n ih =>
    cases l with
    | nil => simp [List.isPrefixOf]
    | cons d l =>
      simp only [List.isPrefixOf, Bool.and_eq_true, beq_iff_eq, ih,
        List.cons_append, List.cons.injEq]
      constructor
      · rintro ⟨rfl, t, rfl⟩
        exact ⟨t, rfl, rfl⟩
      · rintro ⟨t, rfl, rfl⟩
        exact ⟨rfl, t, rfl⟩

lemma isSubListOf_iff (n h : List Char) :
    isSubListOf n h = true ↔ IsSubstr n h := by
  induction h with
  | nil =>
    simp only [isSubListOf, List.isEmpty_iff, IsSubstr]
    constructor
    · rintro rfl
      exact ⟨[], [], rfl⟩
    · rintro ⟨s, t, hst⟩
      rcases List.append_eq_nil.mp hst with ⟨h1, h2⟩
      exact (List.append_eq_nil.mp h1).2
  | cons c rest ih =>
    simp only [isSubListOf, Bool.or_eq_true, isPrefixOf_eq_true_iff, ih, IsSubstr]
    constructor
    · rintro (⟨t, ht⟩ | ⟨s, t, hst⟩)
      · exact ⟨[], t, ht⟩
      · exact ⟨c :: s, t, by simp [hst]⟩
    · rintro ⟨s, t, hst⟩
      cases s with
      | nil => exact Or.inl ⟨t, by simpa using hst⟩
      | cons c' s' =>
        simp only [List.cons_append, List.cons.injEq] at hst
        exact Or.inr ⟨s', t, hst.2⟩

lemma isSubListOf_nil_left (h : List Char) : isSubListOf [] h = true := by
  cases h with
  | nil => rfl
  | cons c rest => simp [isSubListOf, List.isPrefixOf]

/-! ### Run-level lemmas -/

lemma checkBook_none (now today : String) (b : Book) :
    checkBook now today b none = (b, none) := rfl

lemma checkBook_fst_some (now today : String) (b : Book) (items : List Item) :
    (checkBook now today b (some items)).1 =
      (match findMatch b.title items with
       | some _ =>
         { b with last_checked := some now, last_status := Status.found,
                  found_date := if b.last_status = Status.not_found then
                    some today else b.found_date }
       | none =>
         { b with last_checked := some now,
                  last_status := Status.not_found }) := by
  by_cases hs : b.last_status = Status.not_found <;>
    cases hm : findMatch b.title items <;>
      simp [checkBook, hm, hs]

lemma checkBook_snd_some (now today : String) (b : Book) (items : List Item) :
    (checkBook now today b (some items)).2 =
      (if b.last_status = Status.not_found then
        (findMatch b.title items).map (fun it =>
          ({ b with last_checked := some now, last_status := Status.found,
                    found_date := some today }, it))
       else none) := by
  by_cases hs : b.last_status = Status.not_found <;>
    cases hm : findMatch b.title items <;>
      simp [checkBook, hm, hs]

lemma runCheck_books (now today : String)
    (pairs : List (Book × Option (List Item))) :
    (runCheck now today pairs).books =
      pairs.map (fun p => (checkBook now today p.1 p.2).1) := by
  induction pairs with
  | nil => rfl
  | cons p rest ih =>
    obtain ⟨b, resp⟩ := p
    cases resp with
    | none => simpa [runCheck, checkBook_none] using ih
    | some items => simpa [runCheck] using ih

lemma runCheck_newFinds (now today : String)
    (pairs : List (Book × Option (List Item))) :
    (runCheck now today pairs).newFinds =
      pairs.filterMap (fun p => (checkBook now today p.1 p.2).2) := by
  induction pairs with
  | nil => rfl
  | cons p rest ih =>
    obtain ⟨b, resp⟩ := p
    cases resp with
    | none => simpa [runCheck, List.filterMap_cons, checkBook_none] using ih
    | some items =>
      cases hc : (checkBook now today b (some items)).2 with
      | none => simpa [runCheck, hc, List.filterMap_cons] using ih
      | some nf => simpa [runCheck, hc, List.filterMap_cons] using ih

lemma runCheck_sleeps_cons_none (now today : String) (b : Book)
    (rest : List (Book × Option (List Item))) :
    (runCheck now today ((b, none) :: rest)).sleeps =
      (runCheck now today rest).sleeps := rfl

lemma runCheck_sleeps_cons_some (now today : String) (b : Book)
    (items : List Item) (rest : List (Book × Option (List Item))) :
    (runCheck now today ((b, some items) :: rest)).sleeps =
      (runCheck now today rest).sleeps + (if rest.isEmpty then 0 else 1) := rfl

lemma runCheck_sleeps (now today : String)
    (pairs : List (Book × Option (List Item))) :
    (runCheck now today pairs).sleeps =
      (pairs.dropLast.filter (fun p => p.2.isSome)).length := by
  induction pairs with
  | nil => rfl
  | cons p rest ih =>
    obtain ⟨b, resp⟩ := p
    cases rest with
    | nil => cases resp <;> rfl
    | cons q rest' =>
      cases resp with
      | none =>
        rw [runCheck_sleeps_cons_none, ih, List.dropLast_cons₂, List.filter_cons]
        simp
      | some items =>
        rw [runCheck_sleeps_cons_some, ih, List.dropLast_cons₂, List.filter_cons]
        simp

/-! ### Concrete values used by witnesses and counterexamples -/

/-- A catalogue item as in the spec scenario: owned, available, 3 copies. -/
def exItem : Item :=
  { title? := some "Dune", firstCreatorName? := some "Frank Herbert",
    isOwned? := some true, ownedCopies? := some 3,
    isAvailable? := some true, availableCopies? := some 1 }

/-- A freshly watched entry. -/
def cexBook : Book := newEntry "Dune" "" "telaviv" "2024-01-01"

/-- An entry that has regressed to not-found after having been found:
`found_date` is still set from the first discovery. -/
def regressedBook : Book :=
  { cexBook with found_date := some "2024-01-02",
                 last_checked := some "2024-03-01T09:00:00" }

/-- An entry whose title strips to nothing. -/
def blankBook : Book := newEntry " " "" "telaviv" "2024-01-01"

/-! ### Claim theorems -/

/-- C1 counterexample: a fresh entry is found on run 1 (setting
`found_date` to 2024-01-02), regresses on run 2 (empty result list), and
is re-found on run 3 — after which `found_date` has CHANGED to
2024-06-05, so a set `found_date` is not stable under subsequent check
runs. -/
theorem found_date_changes_on_refind :
    (let w1 := (cmd_check false "2024-01-02T09:00:00" "2024-01-02"
                  [(cexBook, some [exItem])]).books
     let w2 := (cmd_check false "2024-03-01T09:00:00" "2024-03-01"
                  (w1.map (fun b => (b, some ([] : List Item))))).books
     let w3 := (cmd_check false "2024-06-05T09:00:00" "2024-06-05"
                  (w2.map (fun b => (b, some [exItem])))).books
     w1.map Book.found_date = [some "2024-01-02"]
     ∧ w2.map Book.found_date = [some "2024-01-02"]
     ∧ w2.map Book.last_status = [Status.not_found]
     ∧ w3.map Book.found_date = [some "2024-06-05"]) := by
  decide

/-- C1 amended: `found_date` is never cleared by a check round, and the
only rounds that change it are not_found-to-found transition rounds,
which overwrite it with that round's date. -/
theorem found_date_update_rule (now today : String) (b : Book)
    (resp : Option (List Item)) :
    ((checkBook now today b resp).1.found_date = none → b.found_date = none)
    ∧ ((checkBook now today b resp).1.found_date ≠ b.found_date →
        (checkBook now today b resp).1.found_date = some today
        ∧ b.last_status = Status.not_found
        ∧ (checkBook now today b resp).1.last_status = Status.found) := by
  cases resp with
  | none => exact ⟨fun h => h, fun h => absurd rfl h⟩
  | some items =>
    simp only [checkBook]
    cases findMatch b.title items with
    | none => exact ⟨fun h => h, fun h => absurd rfl h⟩
    | some item =>
      by_cases hs : b.last_status = Status.not_found
      · simp [hs]
      · simp [hs]

/-- C1 witness: at the regressed entry, the rule yields that `found_date`
stays set and equals the re-find round's date. -/
theorem found_date_update_rule_witness :
    ((checkBook "2024-06-05T09:00:00" "2024-06-05" regressedBook
        (some [exItem])).1.found_date ≠ none)
    ∧ ((checkBook "2024-06-05T09:00:00" "2024-06-05" regressedBook
        (some [exItem])).1.found_date = some "2024-06-05") := by
  have h := found_date_update_rule "2024-06-05T09:00:00" "2024-06-05"
    regressedBook (some [exItem])
  refine ⟨fun hnone => ?_, (h.2 (by decide)).1⟩
  exact absurd (h.1 hnone) (by decide)

/-- C2: in a round whose search succeeded, an entry contributes a new
find iff its previous status was not_found and some response item
genuinely matches (title match and owned); the paired item is the first
such item in response order; an entry already in found status never
contributes; and a run's `new_finds` list is exactly the per-entry
contributions in watchlist order. -/
theorem new_find_detection (now today : String) (b : Book) (items : List Item) :
    ((checkBook now today b (some items)).2 ≠ none ↔
      (b.last_status = Status.not_found
        ∧ ∃ it ∈ items, genuine_match b.title it = true))
    ∧ (∀ b' it, (checkBook now today b (some items)).2 = some (b', it) →
        genuine_match b.title it = true
        ∧ ∃ pre post, items = pre ++ it :: post
            ∧ ∀ x ∈ pre, genuine_match b.title x = false)
    ∧ (b.last_status = Status.found → (checkBook now today b (some items)).2 = none)
    ∧ (∀ pairs : List (Book × Option (List Item)),
        (runCheck now today pairs).newFinds =
          pairs.filterMap (fun p => (checkBook now today p.1 p.2).2)) := by
  refine ⟨?_, ?_, ?_, runCheck_newFinds now today⟩
  · rw [checkBook_snd_some]
    by_cases hs : b.last_status = Status.not_found
    · rw [if_pos hs]
      cases hm : findMatch b.title items with
      | none =>
        simp only [Option.map_none', ne_eq, not_true]
        constructor
        · intro h
          simp at h
        · rintro ⟨_, it, hmem, hg⟩
          have hsome : (findMatch b.title items).isSome = true :=
            List.find?_isSome.mpr ⟨it, hmem, hg⟩
          rw [hm] at hsome
          simp at hsome
      | some item =>
        simp only [Option.map_some', ne_eq]
        constructor
        · intro _
          refine ⟨hs, item, ?_, (List.find?_eq_some.mp hm).1⟩
          obtain ⟨_, as, bs, habs, _⟩ := List.find?_eq_some.mp hm
          rw [habs]
          simp
        · intro _
          simp
    · rw [if_neg hs]
      simp only [ne_eq, not_true]
      constructor
      · intro h
        simp at h
      · rintro ⟨hs', _⟩
        exact absurd hs' hs
  · intro b' it h
    rw [checkBook_snd_some] at h
    by_cases hs : b.last_status = Status.not_found
    · rw [if_pos hs] at h
      cases hm : findMatch b.title items with
      | none => rw [hm] at h; simp at h
      | some item =>
        rw [hm] at h
        simp only [Option.map_some', Option.some.injEq] at h
        have hit : item = it := congrArg Prod.snd h
        subst hit
        obtain ⟨hg, as, bs, habs, hpre⟩ := List.find?_eq_some.mp hm
        refine ⟨hg, as, bs, habs, fun x hx => ?_⟩
        have := hpre x hx
        simpa using this
    · rw [if_neg hs] at h
      simp at h
  · intro hs
    simp [checkBook_snd_some, hs]

/-- C2 witness: a not_found entry with an owned matching item contributes
a new find whose paired item is that first match. -/
theorem new_find_detection_witness :
    (checkBook "2024-01-02T09:00:00" "2024-01-02" cexBook (some [exItem])).2 ≠ none
    ∧ genuine_match cexBook.title exItem = true := by
  have h := new_find_detection "2024-01-02T09:00:00" "2024-01-02" cexBook [exItem]
  refine ⟨h.1.mpr ⟨by decide, exItem, by decide, by decide⟩, by decide⟩

/-- C8: `title_matches` lower-cases and strips both arguments and returns
true exactly when one normalized string is a contiguous substring of the
other; moreover `matches("Dune","Dune Messiah")`,
`matches("The Hobbit","hobbit")` are true and `matches("Foo","Bar")` is
false. -/
theorem title_matches_bidirectional_substring :
    (∀ a b : String, title_matches a b = true ↔
      (IsSubstr (pyStrip (pyLower a)) (pyStrip (pyLower b)) ∨
       IsSubstr (pyStrip (pyLower b)) (pyStrip (pyLower a))))
    ∧ title_matches "Dune" "Dune Messiah" = true
    ∧ title_matches "The Hobbit" "hobbit" = true
    ∧ title_matches "Foo" "Bar" = false := by
  refine ⟨fun a b => ?_, by decide, by decide, by decide⟩
  simp only [title_matches, Bool.or_eq_true, isSubListOf_iff]

/-- C9: a watched title that strips to nothing title-matches every result
title, so during `check` such an entry is marked found as soon as its
response contains any owned item at all. -/
theorem empty_title_matches_everything :
    (∀ t s : String, pyStrip (pyLower t) = [] → title_matches t s = true)
    ∧ (∀ (now today : String) (b : Book) (items : List Item),
        pyStrip (pyLower b.title) = [] →
        (∃ it ∈ items, it.isOwned?.getD false = true) →
        ((checkBook now today b (some items)).1).last_status = Status.found) := by
  have hmatch : ∀ t s : String, pyStrip (pyLower t) = [] →
      title_matches t s = true := by
    intro t s ht
    simp only [title_matches, ht, Bool.or_eq_true]
    exact Or.inl (isSubListOf_nil_left _)
  refine ⟨hmatch, fun now today b items hb ⟨it, hmem, howned⟩ => ?_⟩
  have hfind : (findMatch b.title items).isSome = true := by
    refine List.find?_isSome.mpr ⟨it, hmem, ?_⟩
    simp [genuine_match, hmatch _ _ hb, howned]
  obtain ⟨m, hm⟩ := Option.isSome_iff_exists.mp hfind
  simp only [checkBook, hm]
  by_cases hs : b.last_status = Status.not_found <;> simp [hs]

/-- C9 witness: a one-space title matches an arbitrary result title, and
a one-space-titled entry is marked found from a response with one owned
item. -/
theorem empty_title_matches_everything_witness :
    title_matches " " "Dune Messiah" = true
    ∧ ((checkBook "2024-01-02T09:00:00" "2024-01-02" blankBook
        (some [exItem])).1).last_status = Status.found := by
  have h := empty_title_matches_everything
  exact ⟨h.1 " " "Dune Messiah" (by decide),
         h.2 "2024-01-02T09:00:00" "2024-01-02" blankBook [exItem] (by decide)
           ⟨exItem, by decide, by decide⟩⟩

lemma notifyLines_eq_nil_iff (nfs : List (Book × Item)) :
    notifyLines nfs = [] ↔ nfs = [] := by
  cases nfs <;> simp [notifyLines]

lemma foundDigest_eq_nil_iff (books : List Book) :
    foundDigest books = [] ↔ ∀ b ∈ books, b.last_status ≠ Status.found := by
  rw [show (foundDigest books = [] ↔
      (books.filter (fun b => b.last_status = Status.found)).isEmpty = true) from ?_]
  · simp [List.isEmpty_iff, List.filter_eq_nil_iff]
  · constructor
    · intro h
      by_contra hne
      simp [foundDigest, hne] at h
    · intro h
      simp [foundDigest, h]

/-- C3 counterexample: in notify mode, a run with NO newly-found entries
still prints the FOUND-status digest when some entry is (or stays) in
found status, so notify mode does not print nothing in that case. -/
theorem notify_not_silent_counterexample :
    (let fb : Book := { cexBook with last_status := Status.found }
     let r := cmd_check true "2024-03-01T09:00:00" "2024-03-01"
       [(fb, some [exItem])]
     r.newFinds = [] ∧ r.output ≠ []) := by
  decide

/-- C3 amended: in notify mode the output is empty exactly when the run
produced no new finds AND no entry ends the run in found status; with new
finds, the header and per-find lines (title, creator-name-or-author,
owned copies, yes/no availability) are printed, followed by the
FOUND-status digest. -/
theorem notify_output_rule (now today : String)
    (pairs : List (Book × Option (List Item))) :
    ((cmd_check true now today pairs).output = [] ↔
      ((cmd_check true now today pairs).newFinds = []
        ∧ ∀ b ∈ (cmd_check true now today pairs).books,
            b.last_status ≠ Status.found))
    ∧ ((cmd_check true now today pairs).newFinds ≠ [] →
        (cmd_check true now today pairs).output =
          "New on Libby:\n" ::
            ((cmd_check true now today pairs).newFinds.flatMap findLines)
            ++ foundDigest (cmd_check true now today pairs).books)
    ∧ (∀ (bk : Book) (it : Item), findLines (bk, it) =
        [ "  " ++ (it.title?.getD bk.title) ++ " - "
            ++ (it.firstCreatorName?.getD bk.author),
          "    Library: " ++ bk.library ++ " | Copies: "
            ++ toString (it.ownedCopies?.getD 0) ++ " | Available: "
            ++ (if it.isAvailable?.getD false then "Yes" else "No"),
          "" ]) := by
  by_cases hp : pairs.isEmpty
  · refine ⟨?_, ?_, fun bk it => rfl⟩
    · simp [cmd_check, hp]
    · simp [cmd_check, hp]
  · have hp' : pairs.isEmpty = false := by
      cases hval : pairs.isEmpty
      · rfl
      · exact absurd hval hp
    have hunfold : cmd_check true now today pairs =
        { books := (runCheck now today pairs).books,
          newFinds := (runCheck now today pairs).newFinds,
          sleeps := (runCheck now today pairs).sleeps,
          output := notifyLines (runCheck now today pairs).newFinds
            ++ foundDigest (runCheck now today pairs).books,
          exit := 0 } := by
      simp [cmd_check, hp']
    refine ⟨?_, ?_, fun bk it => rfl⟩
    · rw [hunfold]
      simp only [List.append_eq_nil, notifyLines_eq_nil_iff,
        foundDigest_eq_nil_iff]
    · intro hne
      rw [hunfold] at hne ⊢
      have hval : (runCheck now today pairs).newFinds.isEmpty = false := by
        cases hnf : (runCheck now today pairs).newFinds
        · rw [hnf] at hne
          simp at hne
        · simp [hnf]
      simp [notifyLines, hval]

/-- C3 witness: with one genuinely new find, notify output is the header,
the find's lines, and the digest. -/
theorem notify_output_rule_witness :
    (cmd_check true "2024-01-02T09:00:00" "2024-01-02"
        [(cexBook, some [exItem])]).output =
      "New on Libby:\n" ::
        ((cmd_check true "2024-01-02T09:00:00" "2024-01-02"
            [(cexBook, some [exItem])]).newFinds.flatMap findLines)
        ++ foundDigest (cmd_check true "2024-01-02T09:00:00" "2024-01-02"
            [(cexBook, some [exItem])]).books :=
  (notify_output_rule "2024-01-02T09:00:00" "2024-01-02"
    [(cexBook, some [exItem])]).2.1 (by decide)

/-- C4 counterexample: two entries whose first search fails produce zero
pauses, not N-1 = 1: the `continue` on a failed search skips the shared
rate-limit sleep. -/
theorem rate_limit_skip_counterexample :
    (let pairs : List (Book × Option (List Item)) :=
       [(cexBook, none), (cexBook, some [])]
     (cmd_check false "2024-01-02T09:00:00" "2024-01-02" pairs).sleeps = 0
     ∧ pairs.length - 1 = 1
     ∧ (cmd_check false "2024-01-02T09:00:00" "2024-01-02" pairs).sleeps ≠
         pairs.length - 1) := by
  decide

/-- C4 amended: one check run pauses exactly once after each non-final
entry whose search succeeded (never before the first entry, never after
the last, never after a failed search); in particular a failure-free run
over N entries pauses exactly N-1 times. -/
theorem rate_limit_pause_count (notify : Bool) (now today : String)
    (pairs : List (Book × Option (List Item))) :
    (cmd_check notify now today pairs).sleeps =
      (pairs.dropLast.filter (fun p => p.2.isSome)).length
    ∧ ((∀ p ∈ pairs, p.2.isSome = true) →
        (cmd_check notify now today pairs).sleeps = pairs.length - 1) := by
  have hbase : (cmd_check notify now today pairs).sleeps =
      (pairs.dropLast.filter (fun p => p.2.isSome)).length := by
    by_cases hp : pairs.isEmpty
    · rw [List.isEmpty_iff.mp hp]
      simp [cmd_check]
    · simp [cmd_check, hp, runCheck_sleeps]
  refine ⟨hbase, fun hall => ?_⟩
  rw [hbase]
  have hself : pairs.dropLast.filter (fun p => p.2.isSome) = pairs.dropLast :=
    List.filter_eq_self.mpr
      (fun p hp => hall p (List.Sublist.mem hp (List.dropLast_sublist pairs)))
  rw [hself, List.length_dropLast]

/-- C4 witness: a failure-free three-entry run pauses exactly twice. -/
theorem rate_limit_pause_count_witness :
    (cmd_check false "2024-01-02T09:00:00" "2024-01-02"
      [(cexBook, some []), (blankBook, some []), (regressedBook, some [])]).sleeps
      = 2 :=
  (rate_limit_pause_count false "2024-01-02T09:00:00" "2024-01-02"
    [(cexBook, some []), (blankBook, some []), (regressedBook, some [])]).2
    (by decide)

/-- C5: a check run always exits 0; an entry whose search failed is left
with all its fields (status, last_checked, found_date) unmodified and
contributes no new find; every entry is mapped to its per-entry update
(positionally), so the other entries are processed normally. -/
theorem failed_search_skipped (notify : Bool) (now today : String)
    (pairs : List (Book × Option (List Item))) :
    (cmd_check notify now today pairs).exit = 0
    ∧ (∀ b : Book, checkBook now today b none = (b, none))
    ∧ (∀ (i : Nat) (p : Book × Option (List Item)), pairs[i]? = some p →
        (cmd_check notify now today pairs).books[i]? =
          some ((checkBook now today p.1 p.2).1)) := by
  refine ⟨?_, fun b => rfl, ?_⟩
  · by_cases hp : pairs.isEmpty <;> simp [cmd_check, hp]
  · intro i p hip
    by_cases hp : pairs.isEmpty
    · rw [List.isEmpty_iff.mp hp] at hip
      simp at hip
    · have hbooks : (cmd_check notify now today pairs).books =
          pairs.map (fun q => (checkBook now today q.1 q.2).1) := by
        simp [cmd_check, hp, runCheck_books]
      rw [hbooks, List.getElem?_map, hip]
      rfl

/-- C5 witness: among three entries the middle search fails; that entry
is returned unchanged, the others updated, and the exit code is 0. -/
theorem failed_search_skipped_witness :
    (cmd_check false "2024-01-02T09:00:00" "2024-01-02"
      [(cexBook, some [exItem]), (regressedBook, none),
       (blankBook, some [])]).books[1]? = some regressedBook :=
  (failed_search_skipped false "2024-01-02T09:00:00" "2024-01-02"
    [(cexBook, some [exItem]), (regressedBook, none),
     (blankBook, some [])]).2.2 1 (regressedBook, none) (by decide)

lemma countMatching_eq_zero_iff (books : List Book) (t : String) :
    countMatching books t = 0 ↔
      books.any (fun b => pyLower b.title == pyLower t) = false := by
  simp [countMatching, List.length_eq_zero, List.filter_eq_nil_iff,
    List.any_eq_false]

lemma countMatching_append (xs ys : List Book) (t : String) :
    countMatching (xs ++ ys) t = countMatching xs t + countMatching ys t := by
  simp [countMatching, List.filter_append]

/-- C6: `watch` is idempotent under case-insensitive title identity: on a
watchlist respecting the uniqueness invariant, watching a title and then
watching it again (in any letter case) leaves exactly one entry for that
title, both runs exiting 0. -/
theorem watch_idempotent (t1 t2 a1 a2 l1 l2 d1 d2 : String) (books : List Book)
    (hcase : pyLower t1 = pyLower t2)
    (huniq : countMatching books t1 ≤ 1) :
    (cmd_watch t1 a1 l1 d1 books).2 = 0
    ∧ (cmd_watch t2 a2 l2 d2 (cmd_watch t1 a1 l1 d1 books).1).2 = 0
    ∧ countMatching (cmd_watch t2 a2 l2 d2 (cmd_watch t1 a1 l1 d1 books).1).1 t1
        = 1 := by
  have hpred : (fun b : Book => pyLower b.title == pyLower t2)
      = (fun b : Book => pyLower b.title == pyLower t1) := by
    funext b
    rw [hcase]
  by_cases h1 : books.any (fun b => pyLower b.title == pyLower t1) = true
  · have hr1 : cmd_watch t1 a1 l1 d1 books = (books, 0) := by
      simp [cmd_watch, h1]
    have hr2 : cmd_watch t2 a2 l2 d2 books = (books, 0) := by
      simp [cmd_watch, hpred, h1]
    have hpos : countMatching books t1 ≠ 0 := by
      intro h0
      rw [countMatching_eq_zero_iff] at h0
      rw [h0] at h1
      exact absurd h1 (by simp)
    refine ⟨?_, ?_, ?_⟩
    · rw [hr1]
    · rw [hr1]
      show (cmd_watch t2 a2 l2 d2 books).2 = 0
      rw [hr2]
    · rw [hr1]
      show countMatching (cmd_watch t2 a2 l2 d2 books).1 t1 = 1
      rw [hr2]
      show countMatching books t1 = 1
      omega
  · have h1' : books.any (fun b : Book => pyLower b.title == pyLower t1) = false :=
      Bool.not_eq_true _ |>.mp h1
    have hzero : countMatching books t1 = 0 :=
      (countMatching_eq_zero_iff books t1).mpr h1'
    have hr1 : cmd_watch t1 a1 l1 d1 books =
        (books ++ [newEntry t1 a1 l1 d1], 0) := by
      simp [cmd_watch, h1']
    have hone : countMatching (books ++ [newEntry t1 a1 l1 d1]) t1 = 1 := by
      rw [countMatching_append, hzero]
      simp [countMatching, newEntry, List.filter_cons]
    have h2 : (books ++ [newEntry t1 a1 l1 d1]).any
        (fun b => pyLower b.title == pyLower t2) = true := by
      rw [hpred]
      rw [List.any_eq_true]
      exact ⟨newEntry t1 a1 l1 d1, by simp, by simp [newEntry]⟩
    have hr2 : cmd_watch t2 a2 l2 d2 (books ++ [newEntry t1 a1 l1 d1]) =
        (books ++ [newEntry t1 a1 l1 d1], 0) := by
      simp [cmd_watch, h2]
    rw [hr1]
    rw [hr2]
    exact ⟨rfl, rfl, hone⟩

/-- C6 witness: watching "The Hobbit" then "the hobbit" on an empty
watchlist leaves exactly one matching entry, both exits 0. -/
theorem watch_idempotent_witness :
    (cmd_watch "The Hobbit" "Tolkien" "telaviv" "2024-01-01" []).2 = 0
    ∧ (cmd_watch "the hobbit" "" "nypl" "2024-01-05"
        (cmd_watch "The Hobbit" "Tolkien" "telaviv" "2024-01-01" []).1).2 = 0
    ∧ countMatching (cmd_watch "the hobbit" "" "nypl" "2024-01-05"
        (cmd_watch "The Hobbit" "Tolkien" "telaviv" "2024-01-01" []).1).1
        "The Hobbit" = 1 :=
  watch_idempotent "The Hobbit" "the hobbit" "Tolkien" "" "telaviv" "nypl"
    "2024-01-01" "2024-01-05" [] (by decide) (by decide)

/-- C7: `unwatch` of a title with no case-insensitive match exits 1 and
leaves the watchlist unchanged without saving; with at least one match it
exits 0 and saves. -/
theorem unwatch_exit_codes (title : String) (books : List Book) :
    ((∀ b ∈ books, pyLower b.title ≠ pyLower title) →
      (cmd_unwatch title books).exit = 1
      ∧ (cmd_unwatch title books).saved = false
      ∧ (cmd_unwatch title books).books = books)
    ∧ ((∃ b ∈ books, pyLower b.title = pyLower title) →
      (cmd_unwatch title books).exit = 0
      ∧ (cmd_unwatch title books).saved = true) := by
  constructor
  · intro hall
    have hfil : books.filter (fun b => pyLower b.title != pyLower title)
        = books :=
      List.filter_eq_self.mpr
        (fun b hb => by simpa [bne_iff_ne] using hall b hb)
    simp [cmd_unwatch, hfil]
  · rintro ⟨b, hb, heq⟩
    have hlt : (books.filter
        (fun b => pyLower b.title != pyLower title)).length < books.length :=
      List.length_filter_lt_length_iff_exists.mpr
        ⟨b, hb, by simp [bne_iff_ne, heq]⟩
    simp [cmd_unwatch, hlt]

/-- C7 witness: removing a nonexistent title exits 1; removing "DUNE"
from a watchlist holding "Dune" exits 0. -/
theorem unwatch_exit_codes_witness :
    (cmd_unwatch "nonexistent" [cexBook]).exit = 1
    ∧ (cmd_unwatch "DUNE" [cexBook]).exit = 0 :=
  ⟨((unwatch_exit_codes "nonexistent" [cexBook]).1 (by decide)).1,
   ((unwatch_exit_codes "DUNE" [cexBook]).2 ⟨cexBook, by decide, by decide⟩).1⟩

lemma length_filter_not_add {α : Type} (p : α → Bool) (l : List α) :
    (l.filter (fun a => !(p a))).length + (l.filter p).length = l.length := by
  have h := List.length_eq_length_filter_add (l := l) p
  omega

/-- C10: `unwatch` drops EVERY case-insensitively matching entry, not
just the first: no matching entry remains, the survivors are exactly the
non-matching entries in their original order, and the removed count is
the number of matching entries. -/
theorem unwatch_removes_all_duplicates (title : String) (books : List Book) :
    (∀ b ∈ (cmd_unwatch title books).books, pyLower b.title ≠ pyLower title)
    ∧ ((cmd_unwatch title books).books).Sublist books
    ∧ (∀ b ∈ books, pyLower b.title ≠ pyLower title →
        b ∈ (cmd_unwatch title books).books)
    ∧ ((cmd_unwatch title books).books).length + countMatching books title
        = books.length := by
  have hbooks : (cmd_unwatch title books).books =
      books.filter (fun b => pyLower b.title != pyLower title) := by
    simp only [cmd_unwatch]
    split <;> rfl
  rw [hbooks]
  refine ⟨?_, List.filter_sublist books, ?_, ?_⟩
  · intro b hb
    have := (List.mem_filter.mp hb).2
    simpa [bne_iff_ne] using this
  · intro b hb hne
    exact List.mem_filter.mpr ⟨hb, by simpa [bne_iff_ne] using hne⟩
  · exact length_filter_not_add (fun b => pyLower b.title == pyLower title) books

/-- A second watchlist entry whose title case-folds like "Dune". -/
def dupBook : Book := newEntry "DUNE" "" "telaviv" "2024-01-02"

/-- A watchlist entry unrelated to "Dune". -/
def hobbitBook : Book := newEntry "The Hobbit" "" "telaviv" "2024-01-03"

/-- C10 witness: unwatching "dune" from a list with two case-variant
"Dune" entries keeps the Hobbit entry and removes both duplicates. -/
theorem unwatch_removes_all_duplicates_witness :
    hobbitBook ∈ (cmd_unwatch "dune" [cexBook, dupBook, hobbitBook]).books
    ∧ (cmd_unwatch "dune" [cexBook, dupBook, hobbitBook]).books.length
        + countMatching [cexBook, dupBook, hobbitBook] "dune" = 3 := by
  have h := unwatch_removes_all_duplicates "dune" [cexBook, dupBook, hobbitBook]
  exact ⟨h.2.2.1 hobbitBook (by decide) (by decide), h.2.2.2⟩

end Libby
